import Mathlib

/-!
# Podman Prometheus exporter: the collector of `main.go`

A shallow embedding of `src/main.go`: the metric registry held by `Collector`,
the bounded-time fetch `getAllStats`, and the two operations `Describe` and
`Collect` that the exposition layer calls.

Conventions of the embedding.

* `float64` values are an arbitrary type `F`; the Go conversion `float64(x)` of
  an integer `x` is a function `float64 : Nat → F` passed to the operations
  that convert.  Every theorem holds for every choice of `F` and `float64`, in
  particular for IEEE-754 binary64 with round-to-nearest conversion.  Concrete
  evaluations take `F := ℚ` with the exact embedding of the naturals; all the
  numbers used there are exactly representable in binary64.
* `uint64` and `int` values are natural numbers.
* A `*prometheus.GaugeVec` is its descriptor together with the list of its
  current children, keyed by the two label values `(id, name)`.  The list is
  kept in insertion order; the library stores the children in a hash map and
  `GaugeVec.Collect` visits them in map order, so the order inside one family is
  one admissible order, not a promise of the library.
* The container engine is outside the program.  It is a script: the answer it
  gives to the `k`-th call of `ContainerStats`, together with a counter of the
  calls issued so far.
-/

namespace PodmanExporter

/-! ## Constants (main.go, lines 20-28) -/

/-- The constant `namespace` (line 21). -/
def metricNamespace : String := "podman"

/-- The variable `collectorLabels` (line 27). -/
def collectorLabels : List String := ["id", "name"]

/-! ## Prometheus client objects -/

/-- A metric descriptor `*prometheus.Desc`: fully-qualified name, help text and
the names of the variable labels. -/
structure Desc where
  fqName : String
  help : String
  variableLabels : List String
deriving DecidableEq, Repr

/-- The fields of `prometheus.GaugeOpts` that `NewCollector` sets. `Subsystem`
is left at its zero value, the empty string. -/
structure GaugeOpts where
  Namespace : String
  Subsystem : String := ""
  Name : String
  Help : String
deriving DecidableEq, Repr

/-- The function `prometheus.BuildFQName`: joins the non-empty components with an
underscore; an empty name gives the empty string. -/
def BuildFQName (ns subsystem name : String) : String :=
  if name = "" then ""
  else if ns ≠ "" ∧ subsystem ≠ "" then ns ++ "_" ++ subsystem ++ "_" ++ name
  else if ns ≠ "" then ns ++ "_" ++ name
  else if subsystem ≠ "" then subsystem ++ "_" ++ name
  else name

/-- A `prometheus.Gauge` without labels: descriptor and current value. -/
structure Gauge (F : Type) where
  desc : Desc
  val : F

/-- A `*prometheus.GaugeVec` with the label schema `(id, name)`: descriptor and
current children, one per pair of label values. -/
structure GaugeVec (F : Type) where
  desc : Desc
  metrics : List ((String × String) × F)

/-- What is sent on the channel `ch chan<- prometheus.Metric`: the descriptor, the
label values and the value the gauge holds. -/
structure Metric (F : Type) where
  desc : Desc
  labelValues : List String
  value : F

/-- The constructor `prometheus.NewGauge`: the gauge starts at the zero value. -/
def NewGauge {F : Type} (float64 : Nat → F) (opts : GaugeOpts) : Gauge F :=
  { desc := ⟨BuildFQName opts.Namespace opts.Subsystem opts.Name, opts.Help, []⟩,
    val := float64 0 }

/-- The constructor `prometheus.NewGaugeVec`: no children yet. -/
def NewGaugeVec {F : Type} (opts : GaugeOpts) (labelNames : List String) : GaugeVec F :=
  { desc := ⟨BuildFQName opts.Namespace opts.Subsystem opts.Name, opts.Help, labelNames⟩,
    metrics := [] }

/-- The method `Gauge.Set`. -/
def Gauge.Set {F : Type} (g : Gauge F) (v : F) : Gauge F :=
  { g with val := v }

/-- The method `GaugeVec.Reset`: deletes every child. -/
def GaugeVec.Reset {F : Type} (g : GaugeVec F) : GaugeVec F :=
  { g with metrics := [] }

/-- Writes `v` at the child with label values `k`: the child that exists is
overwritten in place, a child that does not exist is created at the end. -/
def setChild {F : Type} :
    List ((String × String) × F) → String × String → F → List ((String × String) × F)
  | [], k, v => [(k, v)]
  | e :: rest, k, v => if e.1 = k then (e.1, v) :: rest else e :: setChild rest k v

/-- The call chain `g.WithLabelValues(id, name).Set(v)`: `WithLabelValues` returns
the child for the label values, creating it when absent, and `Set` stores `v`
in it.  The two label values match the two labels of the schema, so the call
does not panic. -/
def GaugeVec.WithLabelValuesSet {F : Type} (g : GaugeVec F) (id name : String) (v : F) :
    GaugeVec F :=
  { g with metrics := setChild g.metrics (id, name) v }

/-- The method `GaugeVec.Describe`: sends the one descriptor of the family. -/
def GaugeVec.Describe {F : Type} (g : GaugeVec F) : List Desc := [g.desc]

/-- The method `GaugeVec.Collect`: sends every child of the family. -/
def GaugeVec.Collect {F : Type} (g : GaugeVec F) : List (Metric F) :=
  g.metrics.map fun e => ⟨g.desc, [e.1.1, e.1.2], e.2⟩

/-- The value of the child of `g` at the label pair `k`, when there is one. -/
def GaugeVec.valueAt {F : Type} (g : GaugeVec F) (k : String × String) : Option F :=
  (g.metrics.find? fun e => e.1 = k).map Prod.snd

/-- The label pairs of the children of `g`. -/
def GaugeVec.labelPairs {F : Type} (g : GaugeVec F) : List (String × String) :=
  g.metrics.map Prod.fst

/-! ## The collector (main.go, lines 30-127) -/

/-- The struct `Collector` (lines 30-43).  The embedded mutex is part of the
concurrent model below; the field `ctrName` is never assigned nor read. -/
structure Collector (F : Type) where
  numCtrs : Gauge F
  pids : GaugeVec F
  cpuperc : GaugeVec F
  memusage : GaugeVec F
  memlimit : GaugeVec F
  memperc : GaugeVec F
  netin : GaugeVec F
  netout : GaugeVec F
  blkin : GaugeVec F
  blkout : GaugeVec F

/-- The function `NewCollector` (lines 45-127). -/
def NewCollector {F : Type} (float64 : Nat → F) : Collector F :=
  { numCtrs := NewGauge float64
      { Namespace := metricNamespace, Name := "num_ctrs", Help := "Number of running containers" },
    pids := NewGaugeVec
      { Namespace := metricNamespace, Name := "pids",
        Help := "Number of running pids in the container" } collectorLabels,
    cpuperc := NewGaugeVec
      { Namespace := metricNamespace, Name := "cpuperc", Help := "percentage cpu" }
      collectorLabels,
    memusage := NewGaugeVec
      { Namespace := metricNamespace, Name := "memusage", Help := "memory usage" }
      collectorLabels,
    memlimit := NewGaugeVec
      { Namespace := metricNamespace, Name := "memlimit", Help := "memory limit" }
      collectorLabels,
    memperc := NewGaugeVec
      { Namespace := metricNamespace, Name := "memperc", Help := "memory percentage" }
      collectorLabels,
    netin := NewGaugeVec
      { Namespace := metricNamespace, Name := "netin", Help := "network in" } collectorLabels,
    netout := NewGaugeVec
      { Namespace := metricNamespace, Name := "netout", Help := "network out" } collectorLabels,
    blkin := NewGaugeVec
      { Namespace := metricNamespace, Name := "blkin", Help := "blocks in" } collectorLabels,
    blkout := NewGaugeVec
      { Namespace := metricNamespace, Name := "blkout", Help := "blocks out" } collectorLabels }

/-- The nine per-container families of a collector, in the order in which
`Describe` and `Collect` go through them. -/
def Collector.families {F : Type} (c : Collector F) : List (GaugeVec F) :=
  [c.pids, c.cpuperc, c.memusage, c.memlimit, c.memperc, c.netin, c.netout, c.blkin, c.blkout]

/-! ## The engine and `getAllStats` (main.go, lines 138-160) -/

/-- The fields of podman's `define.ContainerStats` that `Collect` reads.  `CPU`
and `MemPerc` are `float64`, the counters are `uint64`. -/
structure ContainerStats (F : Type) where
  ContainerID : String
  Name : String
  PIDs : Nat
  CPU : F
  MemUsage : Nat
  MemLimit : Nat
  MemPerc : F
  NetInput : Nat
  NetOutput : Nat
  BlockInput : Nat
  BlockOutput : Nat

/-- The label pair `(ctr.ContainerID, ctr.Name)` under which a sample is stored. -/
def ContainerStats.labelPair {F : Type} (ctr : ContainerStats F) : String × String :=
  (ctr.ContainerID, ctr.Name)

/-- Podman's `entities.ContainerStatsReport`, the element type of the channel
that `ContainerStats` returns: an error from reading the statistics, and the
samples. -/
structure ContainerStatsReport (E F : Type) where
  Error : Option E
  Stats : List (ContainerStats F)

/-- Which case of the `select` at lines 153-158 is taken: the deadline context is
done, or a report `s` is received from the channel (a closed channel delivers
the zero report, with no error and no samples). -/
inductive SelectCase (E F : Type) where
  | ctxDone
  | recv (s : ContainerStatsReport E F)

/-- The answer of the engine to one call of `ContainerStats`: an error, or a
channel, seen through the case the `select` takes on it. -/
inductive EngineReply (E F : Type) where
  | err (e : E)
  | reports (first : SelectCase E F)

/-- The container engine: the number of `ContainerStats` calls issued so far and
the answer to each call. -/
structure Engine (E F : Type) where
  calls : Nat
  reply : Nat → EngineReply E F

/-- A Go `error` value returned by `getAllStats`: an error that came from the
engine, or one made by `errors.New`. -/
inductive GoError (E : Type) where
  | engine (e : E)
  | errorsNew (text : String)
deriving DecidableEq, Repr

/-- The function `getAllStats` (lines 138-160): one call of `ContainerStats`; its
error is returned as it is; otherwise the first of the deadline and the report
decides, and of a report only the field `Stats` is read. -/
def getAllStats {E F : Type} (eng : Engine E F) :
    Except (GoError E) (List (ContainerStats F)) × Engine E F :=
  let eng1 := { eng with calls := eng.calls + 1 }
  match eng.reply eng.calls with
  | .err e => (.error (.engine e), eng1)
  | .reports .ctxDone => (.error (.errorsNew "deadline exceeded"), eng1)
  | .reports (.recv s) => (.ok s.Stats, eng1)

/-! ## `Describe` and `Collect` (main.go, lines 162-218) -/

/-- The method `Collector.Describe` (lines 162-173): the descriptor of the scalar
gauge, then the descriptor of each family.  It takes the collector and the
engine and returns them as it leaves them. -/
def Collector.Describe {E F : Type} (c : Collector F) (eng : Engine E F) :
    List Desc × Collector F × Engine E F :=
  ([c.numCtrs.desc] ++ c.pids.Describe ++ c.cpuperc.Describe ++ c.memusage.Describe
    ++ c.memlimit.Describe ++ c.memperc.Describe ++ c.netin.Describe ++ c.netout.Describe
    ++ c.blkin.Describe ++ c.blkout.Describe, c, eng)

/-- Lines 179-187 of `Collect`: `Reset` on each of the nine families. -/
def Collector.resetFamilies {F : Type} (c : Collector F) : Collector F :=
  { c with
    pids := c.pids.Reset, cpuperc := c.cpuperc.Reset, memusage := c.memusage.Reset,
    memlimit := c.memlimit.Reset, memperc := c.memperc.Reset, netin := c.netin.Reset,
    netout := c.netout.Reset, blkin := c.blkin.Reset, blkout := c.blkout.Reset }

/-- The body of the loop at lines 197-207 for one sample `ctr`. -/
def Collector.setSample {F : Type} (float64 : Nat → F) (c : Collector F)
    (ctr : ContainerStats F) : Collector F :=
  { c with
    pids := c.pids.WithLabelValuesSet ctr.ContainerID ctr.Name (float64 ctr.PIDs),
    cpuperc := c.cpuperc.WithLabelValuesSet ctr.ContainerID ctr.Name ctr.CPU,
    memusage := c.memusage.WithLabelValuesSet ctr.ContainerID ctr.Name (float64 ctr.MemUsage),
    memlimit := c.memlimit.WithLabelValuesSet ctr.ContainerID ctr.Name (float64 ctr.MemLimit),
    memperc := c.memperc.WithLabelValuesSet ctr.ContainerID ctr.Name ctr.MemPerc,
    netin := c.netin.WithLabelValuesSet ctr.ContainerID ctr.Name (float64 ctr.NetInput),
    netout := c.netout.WithLabelValuesSet ctr.ContainerID ctr.Name (float64 ctr.NetOutput),
    blkin := c.blkin.WithLabelValuesSet ctr.ContainerID ctr.Name (float64 ctr.BlockInput),
    blkout := c.blkout.WithLabelValuesSet ctr.ContainerID ctr.Name
      (float64 ctr.BlockOutput) }

/-- Lines 195-207 of `Collect`: the scalar gauge is set to the number of samples,
then the samples are stored one after the other. -/
def Collector.populate {F : Type} (float64 : Nat → F) (c : Collector F)
    (reports : List (ContainerStats F)) : Collector F :=
  reports.foldl (Collector.setSample float64)
    { c with numCtrs := c.numCtrs.Set (float64 reports.length) }

/-- Lines 208-217 of `Collect`: the scalar gauge, then each family in turn. -/
def Collector.emit {F : Type} (c : Collector F) : List (Metric F) :=
  [⟨c.numCtrs.desc, [], c.numCtrs.val⟩] ++ c.pids.Collect ++ c.cpuperc.Collect
    ++ c.memusage.Collect ++ c.memlimit.Collect ++ c.memperc.Collect ++ c.netin.Collect
    ++ c.netout.Collect ++ c.blkin.Collect ++ c.blkout.Collect

/-- What one run of `Collect` leaves behind: the collector, the engine, the
metrics sent on the channel, and the error written to the log, if any. -/
structure CollectResult (E F : Type) where
  collector : Collector F
  engine : Engine E F
  sent : List (Metric F)
  logged : Option (GoError E)

/-- The method `Collector.Collect` (lines 175-218), run alone: reset, fetch, and
either log and return, or populate and emit. -/
def Collector.Collect {E F : Type} (float64 : Nat → F) (c : Collector F) (eng : Engine E F) :
    CollectResult E F :=
  let c1 := c.resetFamilies
  match getAllStats eng with
  | (.error err, eng1) => ⟨c1, eng1, [], some err⟩
  | (.ok reports, eng1) =>
    let c2 := c1.populate float64 reports
    ⟨c2, eng1, c2.emit, none⟩

/-- The children of one family after the loop of lines 197-207 has gone through
`reports`, when the family stores `f ctr` for the sample `ctr` and starts with
the children `m`. -/
def storeAll {F : Type} (f : ContainerStats F → F) (reports : List (ContainerStats F))
    (m : List ((String × String) × F)) : List ((String × String) × F) :=
  reports.foldl (fun acc ctr => setChild acc ctr.labelPair (f ctr)) m

/-- The number of distinct label pairs `(ContainerID, Name)` among the samples. -/
def distinctPairs {F : Type} (reports : List (ContainerStats F)) : Nat :=
  (reports.map ContainerStats.labelPair).toFinset.card


/-- Each of the nine families of `c` holds, at the label pair of the sample `ctr`,
the field of `ctr` that the loop of lines 198-206 writes to that family. -/
def Collector.HoldsSample {F : Type} (float64 : Nat → F) (c : Collector F)
    (ctr : ContainerStats F) : Prop :=
  c.pids.valueAt (ctr.ContainerID, ctr.Name) = some (float64 ctr.PIDs) ∧
  c.cpuperc.valueAt (ctr.ContainerID, ctr.Name) = some ctr.CPU ∧
  c.memusage.valueAt (ctr.ContainerID, ctr.Name) = some (float64 ctr.MemUsage) ∧
  c.memlimit.valueAt (ctr.ContainerID, ctr.Name) = some (float64 ctr.MemLimit) ∧
  c.memperc.valueAt (ctr.ContainerID, ctr.Name) = some ctr.MemPerc ∧
  c.netin.valueAt (ctr.ContainerID, ctr.Name) = some (float64 ctr.NetInput) ∧
  c.netout.valueAt (ctr.ContainerID, ctr.Name) = some (float64 ctr.NetOutput) ∧
  c.blkin.valueAt (ctr.ContainerID, ctr.Name) = some (float64 ctr.BlockInput) ∧
  c.blkout.valueAt (ctr.ContainerID, ctr.Name) = some (float64 ctr.BlockOutput)

/-- The descriptors held by the ten metrics of a collector. -/
def Collector.descs {F : Type} (c : Collector F) : List Desc :=
  [c.numCtrs.desc, c.pids.desc, c.cpuperc.desc, c.memusage.desc, c.memlimit.desc,
    c.memperc.desc, c.netin.desc, c.netout.desc, c.blkin.desc, c.blkout.desc]

/-- The collectors the program can hold: the one `main` registers, made by
`NewCollector`, and what any number of `Collect` passes make of it, whatever the
engine answers. -/
inductive Reachable {F : Type} (E : Type) (float64 : Nat → F) : Collector F → Prop where
  | new : Reachable E float64 (NewCollector float64)
  | collect (c : Collector F) (eng : Engine E F) :
      Reachable E float64 c → Reachable E float64 (c.Collect float64 eng).collector

/-! ## Concurrent invocations of `Collect`

Each invocation of `Collect` is a thread with a program counter over the
statements of lines 175-218; the threads share the collector, its mutex and the
engine.  A scheduler picks the thread that takes the next step. -/

/-- Where one invocation of `Collect` stands: before `c.Lock()` (line 176),
before the resets (179-187), before `getAllStats` (189), before the population
with the fetched `reports` (195-207), before the sends (208-217), before the
deferred `c.Unlock()` (line 177, run on return), and returned. -/
inductive PC (F : Type) where
  | atLock
  | atReset
  | atFetch
  | atPopulate (reports : List (ContainerStats F))
  | atEmit
  | atUnlock
  | done

/-- The invocation is between its `c.Lock()` and its `c.Unlock()`. -/
def PC.inside {F : Type} : PC F → Bool
  | .atLock => false
  | .done => false
  | _ => true

/-- The shared state and the threads: the mutex of the collector, the collector,
the engine, the log, and per invocation its program counter and the metrics it
has sent on its channel. -/
structure World (E F : Type) where
  locked : Bool
  collector : Collector F
  engine : Engine E F
  log : List (GoError E)
  pc : Nat → PC F
  out : Nat → List (Metric F)

/-- Every invocation is about to call `c.Lock()`; the mutex is free. -/
def World.start {E F : Type} (c : Collector F) (eng : Engine E F) : World E F :=
  { locked := false, collector := c, engine := eng, log := [],
    pc := fun _ => .atLock, out := fun _ => [] }

/-- One step of invocation `i`.  `c.Lock()` proceeds only when the mutex is free
and takes it; an invocation that is blocked or has returned leaves the world as
it is.  After a failed fetch the error is logged and the invocation returns,
which runs the deferred unlock. -/
def World.step {E F : Type} (float64 : Nat → F) (w : World E F) (i : Nat) : World E F :=
  match w.pc i with
  | .atLock =>
    if w.locked then w
    else { w with locked := true, pc := Function.update w.pc i .atReset }
  | .atReset =>
    { w with collector := w.collector.resetFamilies, pc := Function.update w.pc i .atFetch }
  | .atFetch =>
    match getAllStats w.engine with
    | (.error err, eng1) =>
      { w with engine := eng1, log := w.log ++ [err], pc := Function.update w.pc i .atUnlock }
    | (.ok reports, eng1) =>
      { w with engine := eng1, pc := Function.update w.pc i (.atPopulate reports) }
  | .atPopulate reports =>
    { w with collector := w.collector.populate float64 reports,
             pc := Function.update w.pc i .atEmit }
  | .atEmit =>
    { w with out := Function.update w.out i (w.out i ++ w.collector.emit),
             pc := Function.update w.pc i .atUnlock }
  | .atUnlock =>
    { w with locked := false, pc := Function.update w.pc i .done }
  | .done => w

/-- The world after the steps of a schedule, a list of thread numbers. -/
def World.run {E F : Type} (float64 : Nat → F) (w : World E F) (schedule : List Nat) :
    World E F :=
  schedule.foldl (World.step float64) w

/-- At most one invocation is between lock and unlock, and the mutex is held
exactly when one is. -/
def World.Exclusive {E F : Type} (w : World E F) : Prop :=
  (∀ i j, (w.pc i).inside = true → (w.pc j).inside = true → i = j) ∧
  (w.locked = true ↔ ∃ i, (w.pc i).inside = true)

/-! ## Concrete data for the evaluations -/

/-- The exact embedding of the naturals into the rationals, standing for `float64`
on numbers that binary64 represents exactly. -/
def exactFloat64 (n : Nat) : ℚ := n

/-- An engine that answers every call with `r`, before its first call. -/
def constEngine {E F : Type} (r : EngineReply E F) : Engine E F :=
  { calls := 0, reply := fun _ => r }

/-- An engine that answers every call with a report of the samples `stats`. -/
def okEngine (stats : List (ContainerStats ℚ)) : Engine String ℚ :=
  constEngine (.reports (.recv ⟨none, stats⟩))

/-- The sample of the scenario: container `abc123` named `web`. -/
def webSample : ContainerStats ℚ :=
  { ContainerID := "abc123", Name := "web", PIDs := 5, CPU := 12.5, MemUsage := 1048576,
    MemLimit := 2097152, MemPerc := 50.0, NetInput := 100, NetOutput := 200,
    BlockInput := 10, BlockOutput := 20 }

/-- A sample with the given identity, name and process count, all else zero. -/
def plainSample (id name : String) (pids : Nat) : ContainerStats ℚ :=
  { ContainerID := id, Name := name, PIDs := pids, CPU := 0, MemUsage := 0, MemLimit := 0,
    MemPerc := 0, NetInput := 0, NetOutput := 0, BlockInput := 0, BlockOutput := 0 }

/-- Two samples with the same identity and the same name. -/
def twinSamples : List (ContainerStats ℚ) :=
  [plainSample "a" "x" 1, plainSample "a" "x" 2]

/-- Two samples with the same identity and different names. -/
def renamedSamples : List (ContainerStats ℚ) :=
  [plainSample "a" "x" 1, plainSample "a" "y" 2]

/-- A collector that has been through one successful pass over a container that
is gone afterwards. -/
def usedCollector : Collector ℚ :=
  ((NewCollector exactFloat64).Collect exactFloat64
    (okEngine [plainSample "old" "gone" 7])).collector

/-- An engine whose calls all run into the deadline. -/
def lateEngine : Engine String ℚ := constEngine (.reports .ctxDone)

/-! ## Lemmas on the children of a family -/

theorem setChild_labelPairs {F : Type} (m : List ((String × String) × F))
    (k : String × String) (v : F) :
    (setChild m k v).map Prod.fst =
      if k ∈ m.map Prod.fst then m.map Prod.fst else m.map Prod.fst ++ [k] := by
  induction m with
  | nil => simp [setChild]
  | cons e rest ih =>
    by_cases h : e.1 = k
    · simp [setChild, h]
    · have h2 : ¬ k = e.1 := fun h3 => h h3.symm
      by_cases hk : k ∈ rest.map Prod.fst
      · simp only [setChild, h, if_false, List.map_cons, ih, hk, if_true, List.mem_cons,
          or_true]
      · simp only [setChild, h, if_false, List.map_cons, ih, hk, List.mem_cons, h2, or_self,
          List.cons_append]

theorem setChild_mem_labelPairs {F : Type} (m : List ((String × String) × F))
    (k k2 : String × String) (v : F) :
    k2 ∈ (setChild m k v).map Prod.fst ↔ k2 = k ∨ k2 ∈ m.map Prod.fst := by
  rw [setChild_labelPairs]
  by_cases hk : k ∈ m.map Prod.fst
  · rw [if_pos hk]
    constructor
    · exact fun h => Or.inr h
    · rintro (h | h)
      · exact h ▸ hk
      · exact h
  · rw [if_neg hk, List.mem_append, List.mem_singleton]
    exact or_comm

theorem setChild_nodup {F : Type} (m : List ((String × String) × F))
    (k : String × String) (v : F) (h : (m.map Prod.fst).Nodup) :
    ((setChild m k v).map Prod.fst).Nodup := by
  rw [setChild_labelPairs]
  by_cases hk : k ∈ m.map Prod.fst
  · rw [if_pos hk]; exact h
  · rw [if_neg hk]
    refine List.Nodup.append h (List.nodup_singleton k) ?_
    intro a ha hb
    rw [List.mem_singleton] at hb
    exact hk (hb ▸ ha)

theorem find_setChild {F : Type} (m : List ((String × String) × F))
    (k k2 : String × String) (v : F) :
    ((setChild m k v).find? fun e => e.1 = k2).map Prod.snd =
      if k2 = k then some v else (m.find? fun e => e.1 = k2).map Prod.snd := by
  induction m with
  | nil =>
    by_cases h : k2 = k
    · simp [setChild, h]
    · have h2 : ¬ k = k2 := fun h3 => h h3.symm
      simp [setChild, h, h2]
  | cons e rest ih =>
    by_cases h : e.1 = k
    · by_cases h2 : k2 = k
      · simp [setChild, h, h2]
      · have h3 : ¬ k = k2 := fun h4 => h2 h4.symm
        simp [setChild, h, h2, h3]
    · by_cases h2 : e.1 = k2
      · have h3 : ¬ k2 = k := fun h4 => h (h2.trans h4)
        simp [setChild, h, h2, h3]
      · simp only [setChild, h, if_false, List.find?_cons, h2, decide_False, ih]

theorem storeAll_append {F : Type} (f : ContainerStats F → F)
    (xs ys : List (ContainerStats F)) (m : List ((String × String) × F)) :
    storeAll f (xs ++ ys) m = storeAll f ys (storeAll f xs m) := by
  simp [storeAll, List.foldl_append]

theorem storeAll_mem_labelPairs {F : Type} (f : ContainerStats F → F)
    (reports : List (ContainerStats F)) (m : List ((String × String) × F))
    (k : String × String) :
    k ∈ (storeAll f reports m).map Prod.fst ↔
      k ∈ m.map Prod.fst ∨ ∃ ctr ∈ reports, ctr.labelPair = k := by
  induction reports generalizing m with
  | nil => simp [storeAll]
  | cons ctr rest ih =>
    have h : storeAll f (ctr :: rest) m = storeAll f rest (setChild m ctr.labelPair (f ctr)) :=
      rfl
    rw [h, ih, setChild_mem_labelPairs]
    constructor
    · rintro ((h1 | h1) | ⟨c2, hc, hk⟩)
      · exact Or.inr ⟨ctr, List.mem_cons_self _ _, h1.symm⟩
      · exact Or.inl h1
      · exact Or.inr ⟨c2, List.mem_cons_of_mem _ hc, hk⟩
    · rintro (h1 | ⟨c2, hc, hk⟩)
      · exact Or.inl (Or.inr h1)
      · rcases List.mem_cons.mp hc with h2 | h2
        · exact Or.inl (Or.inl (by rw [← hk, h2]))
        · exact Or.inr ⟨c2, h2, hk⟩

theorem storeAll_nodup {F : Type} (f : ContainerStats F → F)
    (reports : List (ContainerStats F)) (m : List ((String × String) × F))
    (h : (m.map Prod.fst).Nodup) : ((storeAll f reports m).map Prod.fst).Nodup := by
  induction reports generalizing m with
  | nil => simpa [storeAll] using h
  | cons ctr rest ih => exact ih _ (setChild_nodup m ctr.labelPair (f ctr) h)

theorem storeAll_length {F : Type} (f : ContainerStats F → F)
    (reports : List (ContainerStats F)) :
    (storeAll f reports []).length = distinctPairs reports := by
  have hn := storeAll_nodup f reports [] (by simp)
  have hm : ((storeAll f reports []).map Prod.fst).toFinset =
      (reports.map ContainerStats.labelPair).toFinset := by
    ext k
    simp only [List.mem_toFinset]
    rw [storeAll_mem_labelPairs]
    simp
  rw [distinctPairs, ← hm, List.toFinset_card_of_nodup hn, List.length_map]

theorem storeAll_find_last {F : Type} (f : ContainerStats F → F)
    (before after : List (ContainerStats F)) (ctr : ContainerStats F)
    (m : List ((String × String) × F))
    (hlast : ∀ c2 ∈ after, c2.labelPair ≠ ctr.labelPair) :
    ((storeAll f (before ++ ctr :: after) m).find? fun e => e.1 = ctr.labelPair).map Prod.snd =
      some (f ctr) := by
  induction after using List.reverseRecOn with
  | nil =>
    rw [storeAll_append]
    show ((setChild (storeAll f before m) ctr.labelPair (f ctr)).find? _).map Prod.snd = _
    rw [find_setChild]
    simp
  | append_singleton rest c2 ih =>
    have h : before ++ ctr :: (rest ++ [c2]) = (before ++ ctr :: rest) ++ [c2] := by simp
    rw [h, storeAll_append]
    show ((setChild (storeAll f (before ++ ctr :: rest) m) c2.labelPair (f c2)).find? _).map
      Prod.snd = _
    rw [find_setChild]
    have hne : ctr.labelPair ≠ c2.labelPair := fun h2 => hlast c2 (by simp) h2.symm
    rw [if_neg hne]
    exact ih (fun c3 hc3 => hlast c3 (by simp [hc3]))

theorem filter_labelPair_length {F : Type} (m : List ((String × String) × F))
    (k : String × String) (hn : (m.map Prod.fst).Nodup) (hk : k ∈ m.map Prod.fst) :
    (m.filter fun e => e.1 = k).length = 1 := by
  induction m with
  | nil => simp at hk
  | cons e rest ih =>
    rw [List.map_cons, List.nodup_cons] at hn
    by_cases h : e.1 = k
    · have hnot : ∀ e2 ∈ rest, ¬ e2.1 = k := by
        intro e2 he2 h2
        exact hn.1 (List.mem_map.mpr ⟨e2, he2, h2.trans h.symm⟩)
      have hnil : (rest.filter fun e => e.1 = k) = [] := by
        rw [List.filter_eq_nil_iff]
        intro e2 he2
        simpa using hnot e2 he2
      simp [List.filter_cons, h, hnil]
    · have hk2 : k ∈ rest.map Prod.fst := by
        rcases List.mem_cons.mp hk with h2 | h2
        · exact absurd h2.symm h
        · exact h2
      simp [List.filter_cons, h, ih hn.2 hk2]

theorem storeAll_filter_length {F : Type} (f : ContainerStats F → F)
    (reports : List (ContainerStats F)) (ctr : ContainerStats F) (h : ctr ∈ reports) :
    ((storeAll f reports []).filter fun e => e.1 = ctr.labelPair).length = 1 := by
  apply filter_labelPair_length _ _ (storeAll_nodup f reports [] (by simp))
  rw [storeAll_mem_labelPairs]
  exact Or.inr ⟨ctr, h, rfl⟩

/-! ## Closed form of a successful and of a failed pass -/

theorem foldl_setSample {F : Type} (float64 : Nat → F) (reports : List (ContainerStats F))
    (c : Collector F) :
    reports.foldl (Collector.setSample float64) c =
      { numCtrs := c.numCtrs,
        pids := ⟨c.pids.desc, storeAll (fun ctr => float64 ctr.PIDs) reports c.pids.metrics⟩,
        cpuperc := ⟨c.cpuperc.desc, storeAll (fun ctr => ctr.CPU) reports c.cpuperc.metrics⟩,
        memusage := ⟨c.memusage.desc,
          storeAll (fun ctr => float64 ctr.MemUsage) reports c.memusage.metrics⟩,
        memlimit := ⟨c.memlimit.desc,
          storeAll (fun ctr => float64 ctr.MemLimit) reports c.memlimit.metrics⟩,
        memperc := ⟨c.memperc.desc, storeAll (fun ctr => ctr.MemPerc) reports c.memperc.metrics⟩,
        netin := ⟨c.netin.desc, storeAll (fun ctr => float64 ctr.NetInput) reports c.netin.metrics⟩,
        netout := ⟨c.netout.desc,
          storeAll (fun ctr => float64 ctr.NetOutput) reports c.netout.metrics⟩,
        blkin := ⟨c.blkin.desc,
          storeAll (fun ctr => float64 ctr.BlockInput) reports c.blkin.metrics⟩,
        blkout := ⟨c.blkout.desc,
          storeAll (fun ctr => float64 ctr.BlockOutput) reports c.blkout.metrics⟩ } := by
  induction reports generalizing c with
  | nil => rfl
  | cons ctr rest ih =>
    rw [List.foldl_cons, ih]
    rfl

theorem populate_resetFamilies {F : Type} (float64 : Nat → F)
    (reports : List (ContainerStats F)) (c : Collector F) :
    c.resetFamilies.populate float64 reports =
      { numCtrs := ⟨c.numCtrs.desc, float64 reports.length⟩,
        pids := ⟨c.pids.desc, storeAll (fun ctr => float64 ctr.PIDs) reports []⟩,
        cpuperc := ⟨c.cpuperc.desc, storeAll (fun ctr => ctr.CPU) reports []⟩,
        memusage := ⟨c.memusage.desc, storeAll (fun ctr => float64 ctr.MemUsage) reports []⟩,
        memlimit := ⟨c.memlimit.desc, storeAll (fun ctr => float64 ctr.MemLimit) reports []⟩,
        memperc := ⟨c.memperc.desc, storeAll (fun ctr => ctr.MemPerc) reports []⟩,
        netin := ⟨c.netin.desc, storeAll (fun ctr => float64 ctr.NetInput) reports []⟩,
        netout := ⟨c.netout.desc, storeAll (fun ctr => float64 ctr.NetOutput) reports []⟩,
        blkin := ⟨c.blkin.desc, storeAll (fun ctr => float64 ctr.BlockInput) reports []⟩,
        blkout := ⟨c.blkout.desc, storeAll (fun ctr => float64 ctr.BlockOutput) reports []⟩ } := by
  rw [Collector.populate, foldl_setSample]
  rfl

theorem Collect_of_ok {E F : Type} (float64 : Nat → F) (c : Collector F) (eng : Engine E F)
    (reports : List (ContainerStats F)) (h : (getAllStats eng).1 = Except.ok reports) :
    c.Collect float64 eng =
      ⟨c.resetFamilies.populate float64 reports, (getAllStats eng).2,
        (c.resetFamilies.populate float64 reports).emit, none⟩ := by
  rcases hg : getAllStats eng with ⟨r, eng1⟩
  rw [hg] at h
  simp only at h
  subst h
  simp only [Collector.Collect, hg]

theorem Collect_of_error {E F : Type} (float64 : Nat → F) (c : Collector F) (eng : Engine E F)
    (err : GoError E) (h : (getAllStats eng).1 = Except.error err) :
    c.Collect float64 eng = ⟨c.resetFamilies, (getAllStats eng).2, [], some err⟩ := by
  rcases hg : getAllStats eng with ⟨r, eng1⟩
  rw [hg] at h
  simp only at h
  subst h
  simp only [Collector.Collect, hg]

theorem distinctPairs_of_nodup {F : Type} (reports : List (ContainerStats F))
    (h : (reports.map ContainerStats.labelPair).Nodup) :
    distinctPairs reports = reports.length := by
  rw [distinctPairs, List.toFinset_card_of_nodup h, List.length_map]

theorem families_storeAll {E F : Type} (float64 : Nat → F) (c : Collector F)
    (eng : Engine E F) (reports : List (ContainerStats F))
    (h : (getAllStats eng).1 = Except.ok reports) :
    ∀ g ∈ (c.Collect float64 eng).collector.families,
      ∃ f : ContainerStats F → F, g.metrics = storeAll f reports [] := by
  rw [Collect_of_ok float64 c eng reports h, populate_resetFamilies]
  intro g hg
  simp only [Collector.families, List.mem_cons, List.mem_singleton, List.not_mem_nil,
    or_false] at hg
  rcases hg with h | h | h | h | h | h | h | h | h <;> subst h <;> exact ⟨_, rfl⟩

theorem holdsSample_of_last {E F : Type} (float64 : Nat → F) (c : Collector F)
    (eng : Engine E F) (before after : List (ContainerStats F)) (ctr : ContainerStats F)
    (h : (getAllStats eng).1 = Except.ok (before ++ ctr :: after))
    (hlast : ∀ c2 ∈ after, c2.labelPair ≠ ctr.labelPair) :
    (c.Collect float64 eng).collector.HoldsSample float64 ctr := by
  rw [Collect_of_ok float64 c eng _ h, populate_resetFamilies]
  exact ⟨storeAll_find_last _ before after ctr [] hlast,
    storeAll_find_last _ before after ctr [] hlast,
    storeAll_find_last _ before after ctr [] hlast,
    storeAll_find_last _ before after ctr [] hlast,
    storeAll_find_last _ before after ctr [] hlast,
    storeAll_find_last _ before after ctr [] hlast,
    storeAll_find_last _ before after ctr [] hlast,
    storeAll_find_last _ before after ctr [] hlast,
    storeAll_find_last _ before after ctr [] hlast⟩

/-! ## The claims on a successful pass -/

/-- C1, as stated, fails: with two samples that carry the same label pair the
fetch succeeds with N = 2 samples, yet it is false that each family holds two
label-sets (each holds one). -/
theorem Collect_family_size_counterexample :
    (getAllStats (okEngine twinSamples)).1 = Except.ok twinSamples ∧
    twinSamples.length = 2 ∧
    ¬ (∀ g ∈ ((NewCollector exactFloat64).Collect exactFloat64
          (okEngine twinSamples)).collector.families, g.labelPairs.length = 2) := by
  refine ⟨rfl, rfl, fun h => ?_⟩
  have h1 := h ((NewCollector exactFloat64).Collect exactFloat64
    (okEngine twinSamples)).collector.pids (by simp [Collector.families])
  revert h1
  decide

/-- C1, amended: after a successful fetch of N samples the scalar gauge holds
`float64(N)`, and each of the nine families holds one child per distinct label
pair `(ContainerID, Name)` of the snapshot: its label pairs are free of
repetitions and there are as many as the snapshot has distinct pairs, which is
N when the pairs of the snapshot are pairwise distinct (N = 0 included). -/
theorem Collect_numCtrs_and_family_sizes {E F : Type} (float64 : Nat → F) (c : Collector F)
    (eng : Engine E F) (reports : List (ContainerStats F))
    (h : (getAllStats eng).1 = Except.ok reports) :
    (c.Collect float64 eng).collector.numCtrs.val = float64 reports.length ∧
    (∀ g ∈ (c.Collect float64 eng).collector.families,
      g.labelPairs.Nodup ∧ g.labelPairs.length = distinctPairs reports) ∧
    ((reports.map ContainerStats.labelPair).Nodup →
      ∀ g ∈ (c.Collect float64 eng).collector.families,
        g.labelPairs.length = reports.length) := by
  have hf := families_storeAll float64 c eng reports h
  have hsize : ∀ g ∈ (c.Collect float64 eng).collector.families,
      g.labelPairs.Nodup ∧ g.labelPairs.length = distinctPairs reports := by
    intro g hg
    obtain ⟨f, hgf⟩ := hf g hg
    constructor
    · rw [GaugeVec.labelPairs, hgf]
      exact storeAll_nodup f reports [] (by simp)
    · rw [GaugeVec.labelPairs, List.length_map, hgf]
      exact storeAll_length f reports
  refine ⟨?_, hsize, ?_⟩
  · rw [Collect_of_ok float64 c eng reports h, populate_resetFamilies]
  · intro hn g hg
    rw [(hsize g hg).2, distinctPairs_of_nodup reports hn]

/-- C1, amended, at the empty snapshot on a collector that holds children from
an earlier pass: the gauge is `float64(0)` and every family is empty. -/
theorem Collect_numCtrs_and_family_sizes_witness :
    ((getAllStats (okEngine [])).1 = Except.ok [] ∧
      (([] : List (ContainerStats ℚ)).map ContainerStats.labelPair).Nodup) ∧
    (usedCollector.Collect exactFloat64 (okEngine [])).collector.numCtrs.val =
      exactFloat64 ([] : List (ContainerStats ℚ)).length ∧
    (∀ g ∈ (usedCollector.Collect exactFloat64 (okEngine [])).collector.families,
      g.labelPairs.Nodup ∧ g.labelPairs.length = distinctPairs ([] : List (ContainerStats ℚ))) ∧
    (∀ g ∈ (usedCollector.Collect exactFloat64 (okEngine [])).collector.families,
      g.labelPairs.length = ([] : List (ContainerStats ℚ)).length) :=
  ⟨⟨rfl, List.nodup_nil⟩,
    (Collect_numCtrs_and_family_sizes exactFloat64 usedCollector (okEngine []) [] rfl).1,
    (Collect_numCtrs_and_family_sizes exactFloat64 usedCollector (okEngine []) [] rfl).2.1,
    (Collect_numCtrs_and_family_sizes exactFloat64 usedCollector (okEngine []) [] rfl).2.2
      List.nodup_nil⟩

/-- C3, as stated, fails: two samples share the container identity `a` and differ
in their names; after the pass the family `pids` holds two children whose `id`
label is `a`, not one. -/
theorem Collect_same_id_counterexample :
    (getAllStats (okEngine renamedSamples)).1 = Except.ok renamedSamples ∧
    (renamedSamples.map fun ctr => ctr.ContainerID) = ["a", "a"] ∧
    (((NewCollector exactFloat64).Collect exactFloat64
        (okEngine renamedSamples)).collector.pids.metrics.filter
          fun e => e.1.1 = "a").length = 2 := by
  refine ⟨rfl, rfl, ?_⟩
  decide

/-- C3, amended: when a sample `ctr` of the snapshot is followed by no sample
with the same label pair `(ContainerID, Name)`, whatever precedes it, each
family holds after the pass exactly one child at that pair, and its value is
the field of `ctr`: among samples that share both identity and name the last
one wins. -/
theorem Collect_last_write_wins {E F : Type} (float64 : Nat → F) (c : Collector F)
    (eng : Engine E F) (before after : List (ContainerStats F)) (ctr : ContainerStats F)
    (h : (getAllStats eng).1 = Except.ok (before ++ ctr :: after))
    (hlast : ∀ c2 ∈ after, c2.labelPair ≠ ctr.labelPair) :
    (∀ g ∈ (c.Collect float64 eng).collector.families,
      (g.metrics.filter fun e => e.1 = (ctr.ContainerID, ctr.Name)).length = 1) ∧
    (c.Collect float64 eng).collector.HoldsSample float64 ctr := by
  refine ⟨?_, holdsSample_of_last float64 c eng before after ctr h hlast⟩
  intro g hg
  obtain ⟨f, hgf⟩ := families_storeAll float64 c eng _ h g hg
  rw [hgf]
  exact storeAll_filter_length f _ ctr (by simp)

/-- C3, amended, at two samples with the same identity and name: one child, with
the process count 2 of the second sample. -/
theorem Collect_last_write_wins_witness :
    ((getAllStats (okEngine twinSamples)).1 =
        Except.ok ([plainSample "a" "x" 1] ++ plainSample "a" "x" 2 :: []) ∧
      (∀ c2 ∈ ([] : List (ContainerStats ℚ)),
        c2.labelPair ≠ (plainSample "a" "x" 2).labelPair)) ∧
    ((∀ g ∈ (usedCollector.Collect exactFloat64 (okEngine twinSamples)).collector.families,
        (g.metrics.filter fun e => e.1 = ("a", "x")).length = 1) ∧
      (usedCollector.Collect exactFloat64 (okEngine twinSamples)).collector.HoldsSample
        exactFloat64 (plainSample "a" "x" 2)) :=
  ⟨⟨rfl, by simp⟩,
    Collect_last_write_wins exactFloat64 usedCollector (okEngine twinSamples)
      [plainSample "a" "x" 1] [] (plainSample "a" "x" 2) rfl (by simp)⟩

/-- C4: when the label pairs of the snapshot are pairwise distinct, then for every
sample `ctr` of it the pass leaves `float64` of the number of samples in the
scalar gauge and, at the label pair `(ctr.ContainerID, ctr.Name)`, the value
`float64(ctr.PIDs)` in `pids`, `ctr.CPU` in `cpuperc`, `float64(ctr.MemUsage)` in
`memusage`, `float64(ctr.MemLimit)` in `memlimit`, `ctr.MemPerc` in `memperc`,
`float64(ctr.NetInput)` in `netin`, `float64(ctr.NetOutput)` in `netout`,
`float64(ctr.BlockInput)` in `blkin` and `float64(ctr.BlockOutput)` in `blkout`. -/
theorem Collect_holds_every_sample {E F : Type} (float64 : Nat → F) (c : Collector F)
    (eng : Engine E F) (reports : List (ContainerStats F)) (ctr : ContainerStats F)
    (h : (getAllStats eng).1 = Except.ok reports)
    (hd : reports.Pairwise fun a b => (a.ContainerID, a.Name) ≠ (b.ContainerID, b.Name))
    (hm : ctr ∈ reports) :
    (c.Collect float64 eng).collector.numCtrs.val = float64 reports.length ∧
    (c.Collect float64 eng).collector.HoldsSample float64 ctr := by
  constructor
  · rw [Collect_of_ok float64 c eng reports h, populate_resetFamilies]
  · obtain ⟨before, after, hsplit⟩ := List.append_of_mem hm
    subst hsplit
    apply holdsSample_of_last float64 c eng before after ctr h
    intro c2 hc2 heq
    rw [List.pairwise_append] at hd
    exact (List.pairwise_cons.mp hd.2.1).1 c2 hc2 heq.symm

/-- C4 at the scenario of the specification: the one sample `abc123`/`web` gives
`num_ctrs = 1`, `pids = 5`, `cpuperc = 12.5`, `memusage = 1048576`,
`memlimit = 2097152`, `memperc = 50.0`, `netin = 100`, `netout = 200`,
`blkin = 10`, `blkout = 20` at the label pair `(abc123, web)`. -/
theorem Collect_holds_every_sample_witness :
    ((getAllStats (okEngine [webSample])).1 = Except.ok [webSample] ∧
      [webSample].Pairwise (fun a b => (a.ContainerID, a.Name) ≠ (b.ContainerID, b.Name)) ∧
      webSample ∈ [webSample]) ∧
    ((usedCollector.Collect exactFloat64 (okEngine [webSample])).collector.numCtrs.val =
        exactFloat64 [webSample].length ∧
      (usedCollector.Collect exactFloat64 (okEngine [webSample])).collector.HoldsSample
        exactFloat64 webSample) ∧
    ((usedCollector.Collect exactFloat64 (okEngine [webSample])).collector.numCtrs.val = 1 ∧
      (usedCollector.Collect exactFloat64 (okEngine [webSample])).collector.pids.valueAt
        ("abc123", "web") = some 5 ∧
      (usedCollector.Collect exactFloat64 (okEngine [webSample])).collector.cpuperc.valueAt
        ("abc123", "web") = some 12.5 ∧
      (usedCollector.Collect exactFloat64 (okEngine [webSample])).collector.memusage.valueAt
        ("abc123", "web") = some 1048576 ∧
      (usedCollector.Collect exactFloat64 (okEngine [webSample])).collector.memlimit.valueAt
        ("abc123", "web") = some 2097152 ∧
      (usedCollector.Collect exactFloat64 (okEngine [webSample])).collector.memperc.valueAt
        ("abc123", "web") = some 50.0 ∧
      (usedCollector.Collect exactFloat64 (okEngine [webSample])).collector.netin.valueAt
        ("abc123", "web") = some 100 ∧
      (usedCollector.Collect exactFloat64 (okEngine [webSample])).collector.netout.valueAt
        ("abc123", "web") = some 200 ∧
      (usedCollector.Collect exactFloat64 (okEngine [webSample])).collector.blkin.valueAt
        ("abc123", "web") = some 10 ∧
      (usedCollector.Collect exactFloat64 (okEngine [webSample])).collector.blkout.valueAt
        ("abc123", "web") = some 20) :=
  ⟨⟨rfl, List.pairwise_singleton _ _, List.mem_singleton.mpr rfl⟩,
    Collect_holds_every_sample exactFloat64 usedCollector (okEngine [webSample]) [webSample]
      webSample rfl (List.pairwise_singleton _ _) (List.mem_singleton.mpr rfl),
    by
      have hv := Collect_holds_every_sample exactFloat64 usedCollector (okEngine [webSample])
        [webSample] webSample rfl (List.pairwise_singleton _ _) (List.mem_singleton.mpr rfl)
      simpa [Collector.HoldsSample, webSample, exactFloat64] using hv⟩

/-- C5: after a successful fetch, whatever the families held before, the label
pairs of each family are exactly the pairs `(ContainerID, Name)` of the samples
of the snapshot, and the children of the nine families are the same from any
two prior collectors `c` and `c2`. -/
theorem Collect_families_match_snapshot {E F : Type} (float64 : Nat → F)
    (c c2 : Collector F) (eng : Engine E F) (reports : List (ContainerStats F))
    (h : (getAllStats eng).1 = Except.ok reports) :
    (∀ g ∈ (c.Collect float64 eng).collector.families, ∀ k : String × String,
      k ∈ g.labelPairs ↔ ∃ ctr ∈ reports, (ctr.ContainerID, ctr.Name) = k) ∧
    (c.Collect float64 eng).collector.families.map GaugeVec.metrics =
      (c2.Collect float64 eng).collector.families.map GaugeVec.metrics := by
  constructor
  · intro g hg k
    obtain ⟨f, hgf⟩ := families_storeAll float64 c eng reports h g hg
    rw [GaugeVec.labelPairs, hgf, storeAll_mem_labelPairs]
    simp [ContainerStats.labelPair]
  · rw [Collect_of_ok float64 c eng reports h, Collect_of_ok float64 c2 eng reports h,
      populate_resetFamilies, populate_resetFamilies]
    rfl

/-- C5 at a collector that still holds the child of a container that is gone and
at a fresh collector: both end with the children of the new snapshot only. -/
theorem Collect_families_match_snapshot_witness :
    (getAllStats (okEngine [webSample])).1 = Except.ok [webSample] ∧
    ((∀ g ∈ (usedCollector.Collect exactFloat64 (okEngine [webSample])).collector.families,
        ∀ k : String × String,
          k ∈ g.labelPairs ↔ ∃ ctr ∈ [webSample], (ctr.ContainerID, ctr.Name) = k) ∧
      (usedCollector.Collect exactFloat64 (okEngine [webSample])).collector.families.map
          GaugeVec.metrics =
        ((NewCollector exactFloat64).Collect exactFloat64
          (okEngine [webSample])).collector.families.map GaugeVec.metrics) :=
  ⟨rfl, Collect_families_match_snapshot exactFloat64 usedCollector (NewCollector exactFloat64)
    (okEngine [webSample]) [webSample] rfl⟩

/-! ## The claims on a failed fetch -/

/-- C2: when `getAllStats` fails with any error `err` (an engine error or the
deadline), `Collect` returns with the scalar gauge as it was before the call,
with every one of the nine families empty, and with `err` logged. -/
theorem Collect_fetch_failure_state {E F : Type} (float64 : Nat → F) (c : Collector F)
    (eng : Engine E F) (err : GoError E) (h : (getAllStats eng).1 = Except.error err) :
    (c.Collect float64 eng).collector.numCtrs.val = c.numCtrs.val ∧
    (∀ g ∈ (c.Collect float64 eng).collector.families, g.metrics = []) ∧
    (c.Collect float64 eng).logged = some err := by
  rw [Collect_of_error float64 c eng err h]
  refine ⟨rfl, ?_, rfl⟩
  intro g hg
  simp only [Collector.families, Collector.resetFamilies, List.mem_cons, List.mem_singleton,
    List.not_mem_nil, or_false] at hg
  rcases hg with h | h | h | h | h | h | h | h | h <;> subst h <;> rfl

/-- C2 at a collector whose last successful pass saw one container, with a fetch
that runs into the deadline: the gauge keeps its value and the families are
empty. -/
theorem Collect_fetch_failure_state_witness :
    (getAllStats lateEngine).1 = Except.error (GoError.errorsNew "deadline exceeded") ∧
    ((usedCollector.Collect exactFloat64 lateEngine).collector.numCtrs.val =
        usedCollector.numCtrs.val ∧
      (∀ g ∈ (usedCollector.Collect exactFloat64 lateEngine).collector.families,
        g.metrics = []) ∧
      (usedCollector.Collect exactFloat64 lateEngine).logged =
        some (GoError.errorsNew "deadline exceeded")) :=
  ⟨rfl, Collect_fetch_failure_state exactFloat64 usedCollector lateEngine
    (GoError.errorsNew "deadline exceeded") rfl⟩

/-- C10: when `getAllStats` fails, `Collect` sends nothing on the metric channel,
not even the scalar gauge, whose earlier value stays in the collector. -/
theorem Collect_fetch_failure_sends_nothing {E F : Type} (float64 : Nat → F)
    (c : Collector F) (eng : Engine E F) (err : GoError E)
    (h : (getAllStats eng).1 = Except.error err) :
    (c.Collect float64 eng).sent = [] ∧
    (c.Collect float64 eng).collector.numCtrs = c.numCtrs := by
  rw [Collect_of_error float64 c eng err h]
  exact ⟨rfl, rfl⟩

/-- C10 at an engine that returns an error from the call itself. -/
theorem Collect_fetch_failure_sends_nothing_witness :
    (getAllStats (constEngine (.err "no engine") : Engine String ℚ)).1 =
      Except.error (GoError.engine "no engine") ∧
    ((usedCollector.Collect exactFloat64 (constEngine (.err "no engine"))).sent = [] ∧
      (usedCollector.Collect exactFloat64 (constEngine (.err "no engine"))).collector.numCtrs =
        usedCollector.numCtrs) :=
  ⟨rfl, Collect_fetch_failure_sends_nothing exactFloat64 usedCollector
    (constEngine (.err "no engine")) (GoError.engine "no engine") rfl⟩

/-! ## The stream of a successful pass -/

/-- C9: after a successful fetch the stream sent by `Collect` is the scalar gauge,
holding `float64` of the number of samples, followed by the children of `pids`,
`cpuperc`, `memusage`, `memlimit`, `memperc`, `netin`, `netout`, `blkin` and
`blkout` in this order; each family contributes one metric per child, with
label values free of repetitions, K of them for K distinct label pairs in the
snapshot; the stream has `1 + 9 * K` metrics. -/
theorem Collect_sent_stream {E F : Type} (float64 : Nat → F) (c : Collector F)
    (eng : Engine E F) (reports : List (ContainerStats F))
    (h : (getAllStats eng).1 = Except.ok reports) :
    (c.Collect float64 eng).sent =
      [⟨c.numCtrs.desc, [], float64 reports.length⟩]
        ++ (c.Collect float64 eng).collector.pids.Collect
        ++ (c.Collect float64 eng).collector.cpuperc.Collect
        ++ (c.Collect float64 eng).collector.memusage.Collect
        ++ (c.Collect float64 eng).collector.memlimit.Collect
        ++ (c.Collect float64 eng).collector.memperc.Collect
        ++ (c.Collect float64 eng).collector.netin.Collect
        ++ (c.Collect float64 eng).collector.netout.Collect
        ++ (c.Collect float64 eng).collector.blkin.Collect
        ++ (c.Collect float64 eng).collector.blkout.Collect ∧
    (∀ g ∈ (c.Collect float64 eng).collector.families,
      (g.Collect.map fun m => (m.labelValues, m.value)) =
          (g.metrics.map fun e => ([e.1.1, e.1.2], e.2)) ∧
        (g.Collect.map Metric.labelValues).Nodup ∧
        g.Collect.length = distinctPairs reports) ∧
    (c.Collect float64 eng).sent.length = 1 + 9 * distinctPairs reports := by
  have hsize : ∀ g ∈ (c.Collect float64 eng).collector.families,
      g.Collect.length = distinctPairs reports := by
    intro g hg
    obtain ⟨f, hgf⟩ := families_storeAll float64 c eng reports h g hg
    rw [GaugeVec.Collect, List.length_map, hgf]
    exact storeAll_length f reports
  have hsent : (c.Collect float64 eng).sent = (c.Collect float64 eng).collector.emit := by
    rw [Collect_of_ok float64 c eng reports h]
  have hnum : (c.Collect float64 eng).collector.numCtrs =
      ⟨c.numCtrs.desc, float64 reports.length⟩ := by
    rw [Collect_of_ok float64 c eng reports h, populate_resetFamilies]
  refine ⟨?_, ?_, ?_⟩
  · rw [hsent, Collector.emit, hnum]
  · intro g hg
    refine ⟨?_, ?_, hsize g hg⟩
    · simp [GaugeVec.Collect]
    · obtain ⟨f, hgf⟩ := families_storeAll float64 c eng reports h g hg
      have hn : (g.metrics.map Prod.fst).Nodup := by
        rw [hgf]; exact storeAll_nodup f reports [] (by simp)
      have hmap : g.Collect.map Metric.labelValues =
          (g.metrics.map Prod.fst).map fun k => [k.1, k.2] := by
        simp [GaugeVec.Collect]
      rw [hmap]
      refine hn.map ?_
      intro a b hab
      simp only [List.cons.injEq, and_true] at hab
      exact Prod.ext hab.1 hab.2
  · have h1 := hsize _ (show (c.Collect float64 eng).collector.pids ∈ _ by
      simp [Collector.families])
    have h2 := hsize _ (show (c.Collect float64 eng).collector.cpuperc ∈ _ by
      simp [Collector.families])
    have h3 := hsize _ (show (c.Collect float64 eng).collector.memusage ∈ _ by
      simp [Collector.families])
    have h4 := hsize _ (show (c.Collect float64 eng).collector.memlimit ∈ _ by
      simp [Collector.families])
    have h5 := hsize _ (show (c.Collect float64 eng).collector.memperc ∈ _ by
      simp [Collector.families])
    have h6 := hsize _ (show (c.Collect float64 eng).collector.netin ∈ _ by
      simp [Collector.families])
    have h7 := hsize _ (show (c.Collect float64 eng).collector.netout ∈ _ by
      simp [Collector.families])
    have h8 := hsize _ (show (c.Collect float64 eng).collector.blkin ∈ _ by
      simp [Collector.families])
    have h9 := hsize _ (show (c.Collect float64 eng).collector.blkout ∈ _ by
      simp [Collector.families])
    rw [hsent, Collector.emit]
    simp only [List.length_append, List.length_cons, List.length_nil, h1, h2, h3, h4, h5, h6,
      h7, h8, h9]
    omega

/-- C9 at two containers on a collector with a stale child: the stream has the
scalar gauge and nine times two children, nineteen metrics. -/
theorem Collect_sent_stream_witness :
    (getAllStats (okEngine renamedSamples)).1 = Except.ok renamedSamples ∧
    (usedCollector.Collect exactFloat64 (okEngine renamedSamples)).sent.length =
      1 + 9 * distinctPairs renamedSamples ∧
    (usedCollector.Collect exactFloat64 (okEngine renamedSamples)).sent.length = 19 :=
  ⟨rfl,
    (Collect_sent_stream exactFloat64 usedCollector (okEngine renamedSamples) renamedSamples
      rfl).2.2,
    by decide⟩

/-! ## `Describe` -/

theorem descs_Collect {E F : Type} (float64 : Nat → F) (c : Collector F) (eng : Engine E F) :
    (c.Collect float64 eng).collector.descs = c.descs := by
  rcases hr : (getAllStats eng).1 with err | reports
  · rw [Collect_of_error float64 c eng err hr]
    rfl
  · rw [Collect_of_ok float64 c eng reports hr, populate_resetFamilies]
    rfl

theorem descs_of_reachable {E F : Type} (float64 : Nat → F) (c : Collector F)
    (hc : Reachable E float64 c) : c.descs = (NewCollector float64).descs := by
  induction hc with
  | new => rfl
  | collect c eng _ ih => rw [descs_Collect, ih]

/-- C6: on the collector made by `NewCollector` and on every collector that
`Collect` passes make of it, `Describe` sends ten descriptors: `podman_num_ctrs`
without labels, then `podman_pids`, `podman_cpuperc`, `podman_memusage`,
`podman_memlimit`, `podman_memperc`, `podman_netin`, `podman_netout`,
`podman_blkin`, `podman_blkout`, each with the labels `id` and `name`; the ten
names are pairwise distinct; the collector and the engine, with its count of
calls, are left as they were. -/
theorem Describe_ten_descriptors {E F : Type} (float64 : Nat → F) (c : Collector F)
    (hc : Reachable E float64 c) (eng : Engine E F) :
    ((c.Describe eng).1.map fun d => (d.fqName, d.variableLabels)) =
      [("podman_num_ctrs", []), ("podman_pids", ["id", "name"]),
        ("podman_cpuperc", ["id", "name"]), ("podman_memusage", ["id", "name"]),
        ("podman_memlimit", ["id", "name"]), ("podman_memperc", ["id", "name"]),
        ("podman_netin", ["id", "name"]), ("podman_netout", ["id", "name"]),
        ("podman_blkin", ["id", "name"]), ("podman_blkout", ["id", "name"])] ∧
    (c.Describe eng).1.length = 10 ∧
    ((c.Describe eng).1.map Desc.fqName).Nodup ∧
    (c.Describe eng).2 = (c, eng) := by
  have hd : (c.Describe eng).1 = (NewCollector float64).descs :=
    descs_of_reachable float64 c hc
  have hn : (NewCollector float64).descs.map Desc.fqName =
      ["podman_num_ctrs", "podman_pids", "podman_cpuperc", "podman_memusage",
        "podman_memlimit", "podman_memperc", "podman_netin", "podman_netout", "podman_blkin",
        "podman_blkout"] := rfl
  rw [hd, hn]
  refine ⟨rfl, rfl, by decide, rfl⟩

/-- C6 before any fetch: the fresh collector. -/
theorem Describe_ten_descriptors_witness :
    ((((NewCollector exactFloat64).Describe lateEngine).1.map
        fun d => (d.fqName, d.variableLabels)) =
      [("podman_num_ctrs", []), ("podman_pids", ["id", "name"]),
        ("podman_cpuperc", ["id", "name"]), ("podman_memusage", ["id", "name"]),
        ("podman_memlimit", ["id", "name"]), ("podman_memperc", ["id", "name"]),
        ("podman_netin", ["id", "name"]), ("podman_netout", ["id", "name"]),
        ("podman_blkin", ["id", "name"]), ("podman_blkout", ["id", "name"])] ∧
    ((NewCollector exactFloat64).Describe lateEngine).1.length = 10 ∧
    (((NewCollector exactFloat64).Describe lateEngine).1.map Desc.fqName).Nodup ∧
    ((NewCollector exactFloat64).Describe lateEngine).2 =
      (NewCollector exactFloat64, lateEngine)) :=
  Describe_ten_descriptors exactFloat64 (NewCollector exactFloat64) Reachable.new lateEngine

/-! ## `getAllStats` -/

/-- Every run of `getAllStats` issues exactly one call of `ContainerStats`. -/
theorem getAllStats_calls {E F : Type} (eng : Engine E F) :
    (getAllStats eng).2.calls = eng.calls + 1 ∧ (getAllStats eng).2.reply = eng.reply := by
  unfold getAllStats
  split <;> exact ⟨rfl, rfl⟩

/-- An error returned by the call of `ContainerStats` itself comes back unchanged,
without a snapshot. -/
theorem getAllStats_of_call_error {E F : Type} (eng : Engine E F) (e : E)
    (h : eng.reply eng.calls = EngineReply.err e) :
    (getAllStats eng).1 = Except.error (GoError.engine e) := by
  simp only [getAllStats, h]

/-- A report that arrives before the deadline makes `getAllStats` succeed with the
samples of the report, whatever the field `Error` of the report holds. -/
theorem getAllStats_of_report {E F : Type} (eng : Engine E F) (s : ContainerStatsReport E F)
    (h : eng.reply eng.calls = EngineReply.reports (SelectCase.recv s)) :
    (getAllStats eng).1 = Except.ok s.Stats := by
  simp only [getAllStats, h]

/-- C7 at the failing input: the engine accepts the call and delivers a report
whose field `Error` is set and which has no samples.  `getAllStats` issues one
call and returns the empty snapshot with no error; `Collect` then logs nothing,
sets the scalar gauge to zero and sends it. -/
theorem getAllStats_report_error_dropped :
    (getAllStats (constEngine (.reports (.recv ⟨some "stats failed", []⟩)) :
      Engine String ℚ)).1 = Except.ok [] ∧
    (getAllStats (constEngine (.reports (.recv ⟨some "stats failed", []⟩)) :
      Engine String ℚ)).2.calls = 1 ∧
    (usedCollector.Collect exactFloat64
      (constEngine (.reports (.recv ⟨some "stats failed", []⟩)))).logged = none ∧
    (usedCollector.Collect exactFloat64
      (constEngine (.reports (.recv ⟨some "stats failed", []⟩)))).collector.numCtrs.val = 0 ∧
    (usedCollector.Collect exactFloat64
      (constEngine (.reports (.recv ⟨some "stats failed", []⟩)))).sent.length = 1 := by
  refine ⟨rfl, rfl, rfl, ?_, rfl⟩
  simp [Collector.Collect, getAllStats, constEngine, Collector.populate, Gauge.Set,
    exactFloat64]

/-! ## Mutual exclusion of concurrent invocations -/

theorem start_exclusive {E F : Type} (c : Collector F) (eng : Engine E F) :
    (World.start c eng).Exclusive := by
  constructor
  · intro i j hi
    simp [World.start, PC.inside] at hi
  · simp [World.start, PC.inside]

/-- An invocation inside the section that moves to another point inside it keeps
the exclusion. -/
theorem exclusive_of_stay {E F : Type} (w w2 : World E F) (i : Nat) (p : PC F)
    (h : w.Exclusive) (hi : (w.pc i).inside = true) (hl : w2.locked = w.locked)
    (hpc : w2.pc = Function.update w.pc i p) (hp : p.inside = true) : w2.Exclusive := by
  have hin : ∀ j, (w2.pc j).inside = true → j = i := by
    intro j hj
    by_cases hji : j = i
    · exact hji
    · rw [hpc, Function.update_noteq hji] at hj
      exact h.1 j i hj hi
  constructor
  · intro a b ha hb
    rw [hin a ha, hin b hb]
  · rw [hl]
    constructor
    · intro _
      exact ⟨i, by rw [hpc, Function.update_same]; exact hp⟩
    · intro _
      exact h.2.mpr ⟨i, hi⟩

theorem step_exclusive {E F : Type} (float64 : Nat → F) (w : World E F) (i : Nat)
    (h : w.Exclusive) : (w.step float64 i).Exclusive := by
  unfold World.step
  split
  next hpc =>
    by_cases hl : w.locked = true
    · rw [if_pos hl]; exact h
    · rw [if_neg hl]
      have hnone : ∀ j, (w.pc j).inside = true → False := fun j hj => hl (h.2.mpr ⟨j, hj⟩)
      have hin : ∀ j, ((Function.update w.pc i PC.atReset) j).inside = true → j = i := by
        intro j hj
        by_cases hji : j = i
        · exact hji
        · rw [Function.update_noteq hji] at hj
          exact (hnone j hj).elim
      constructor
      · intro a b ha hb
        rw [hin a ha, hin b hb]
      · constructor
        · intro _
          exact ⟨i, by simp [PC.inside]⟩
        · intro _
          rfl
  next hpc => exact exclusive_of_stay w _ i _ h (by rw [hpc]; rfl) rfl rfl rfl
  next hpc =>
    split
    · exact exclusive_of_stay w _ i _ h (by rw [hpc]; rfl) rfl rfl rfl
    · exact exclusive_of_stay w _ i _ h (by rw [hpc]; rfl) rfl rfl rfl
  next reports hpc => exact exclusive_of_stay w _ i _ h (by rw [hpc]; rfl) rfl rfl rfl
  next hpc => exact exclusive_of_stay w _ i _ h (by rw [hpc]; rfl) rfl rfl rfl
  next hpc =>
    have hi : (w.pc i).inside = true := by rw [hpc]; rfl
    have hnone : ∀ j, ((Function.update w.pc i PC.done) j).inside = true → False := by
      intro j hj
      by_cases hji : j = i
      · rw [hji, Function.update_same] at hj
        simp [PC.inside] at hj
      · rw [Function.update_noteq hji] at hj
        exact hji (h.1 j i hj hi)
    constructor
    · intro a b ha
      exact (hnone a ha).elim
    · constructor
      · intro hf
        simp at hf
      · rintro ⟨j, hj⟩
        exact (hnone j hj).elim
  next hpc => exact h

theorem run_exclusive {E F : Type} (float64 : Nat → F) (w : World E F)
    (schedule : List Nat) (h : w.Exclusive) : (w.run float64 schedule).Exclusive := by
  induction schedule generalizing w with
  | nil => exact h
  | cons i rest ih => exact ih _ (step_exclusive float64 w i h)

/-- An invocation that runs alone from the start goes through the whole of
`Collect` and returns with the mutex released, after a successful and after a
failed fetch alike. -/
theorem run_alone {E F : Type} (float64 : Nat → F) (c : Collector F) (eng : Engine E F)
    (i : Nat) :
    ((World.start c eng).run float64 [i, i, i, i, i, i]).locked = false ∧
    ((World.start c eng).run float64 [i, i, i, i, i, i]).pc i = PC.done ∧
    ((World.start c eng).run float64 [i, i, i, i, i, i]).collector =
      (c.Collect float64 eng).collector ∧
    ((World.start c eng).run float64 [i, i, i, i, i, i]).out i =
      (c.Collect float64 eng).sent := by
  rcases hg : getAllStats eng with ⟨r, eng1⟩
  cases r with
  | error err =>
    simp [World.run, World.step, World.start, Collector.Collect, hg]
  | ok reports =>
    simp [World.run, World.step, World.start, Collector.Collect, hg]

/-- While one invocation is inside the section, a step of any other invocation
changes nothing: the other one has returned or is blocked at `Lock`. -/
theorem step_blocked {E F : Type} (float64 : Nat → F) (w : World E F) (i j : Nat)
    (h : w.Exclusive) (hi : (w.pc i).inside = true) (hj : j ≠ i) : w.step float64 j = w := by
  have hout : (w.pc j).inside = false := by
    by_contra hc
    exact hj (h.1 j i (by simpa using hc) hi)
  have hl : w.locked = true := h.2.mpr ⟨i, hi⟩
  unfold World.step
  split
  next hpc => rw [if_pos hl]
  next hpc => rw [hpc] at hout; simp [PC.inside] at hout
  next hpc => rw [hpc] at hout; simp [PC.inside] at hout
  next reports hpc => rw [hpc] at hout; simp [PC.inside] at hout
  next hpc => rw [hpc] at hout; simp [PC.inside] at hout
  next hpc => rw [hpc] at hout; simp [PC.inside] at hout
  next hpc => rfl

/-- C8: from the state in which the mutex is free and every invocation of
`Collect` is about to lock it, after any schedule of steps of any invocations at
most one invocation is between its `Lock` and its `Unlock`, that is inside the
sequence reset, fetch, populate, emit, and the mutex is held exactly when one
is; while an invocation is inside, a step of any other invocation changes
nothing; and an invocation that is scheduled alone runs the whole sequence and
releases the mutex on the success path and on the failure path. -/
theorem Collect_mutual_exclusion {E F : Type} (float64 : Nat → F) (c : Collector F)
    (eng : Engine E F) :
    (∀ schedule : List Nat, ((World.start c eng).run float64 schedule).Exclusive) ∧
    (∀ (schedule : List Nat) (i j : Nat),
      (((World.start c eng).run float64 schedule).pc i).inside = true → j ≠ i →
        ((World.start c eng).run float64 schedule).step float64 j =
          (World.start c eng).run float64 schedule) ∧
    (∀ i : Nat,
      ((World.start c eng).run float64 [i, i, i, i, i, i]).locked = false ∧
      ((World.start c eng).run float64 [i, i, i, i, i, i]).pc i = PC.done ∧
      ((World.start c eng).run float64 [i, i, i, i, i, i]).collector =
        (c.Collect float64 eng).collector ∧
      ((World.start c eng).run float64 [i, i, i, i, i, i]).out i =
        (c.Collect float64 eng).sent) :=
  ⟨fun schedule => run_exclusive float64 _ schedule (start_exclusive c eng),
    fun schedule i j hi hj =>
      step_blocked float64 _ i j (run_exclusive float64 _ schedule (start_exclusive c eng)) hi hj,
    fun i => run_alone float64 c eng i⟩

/-- C8 at two invocations: invocation 0 has locked and reset and is about to
fetch; a step of invocation 1 leaves the world as it is, and the mutex is held
by exactly one invocation. -/
theorem Collect_mutual_exclusion_witness :
    ((((World.start usedCollector (okEngine [webSample])).run exactFloat64 [0, 0]).pc 0).inside
        = true ∧ (1 : Nat) ≠ 0) ∧
    ((World.start usedCollector (okEngine [webSample])).run exactFloat64 [0, 0]).Exclusive ∧
    ((World.start usedCollector (okEngine [webSample])).run exactFloat64 [0, 0]).step
        exactFloat64 1 =
      (World.start usedCollector (okEngine [webSample])).run exactFloat64 [0, 0] :=
  ⟨⟨rfl, by decide⟩,
    (Collect_mutual_exclusion exactFloat64 usedCollector (okEngine [webSample])).1 [0, 0],
    (Collect_mutual_exclusion exactFloat64 usedCollector (okEngine [webSample])).2.1 [0, 0] 0 1
      rfl (by decide)⟩

end PodmanExporter
